import Mathlib

set_option maxRecDepth 8000

/-- JSON values as produced by Python's json.loads on one log line:
null, booleans, numbers (modelled as integers), strings, arrays and
objects (finite string-keyed maps, modelled as association lists). -/
inductive Json where
  | null : Json
  | bool : Bool → Json
  | num : Int → Json
  | str : String → Json
  | arr : List Json → Json
  | obj : List (String × Json) → Json

mutual

/-- Structural equality of JSON values (Python == on decoded values,
restricted to this universe). -/
def jeq : Json → Json → Bool
  | .null, .null => true
  | .bool a, .bool b => a == b
  | .num a, .num b => a == b
  | .str a, .str b => a == b
  | .arr a, .arr b => jeqList a b
  | .obj a, .obj b => jeqKvs a b
  | _, _ => false

/-- Elementwise equality of JSON arrays. -/
def jeqList : List Json → List Json → Bool
  | [], [] => true
  | a :: as, b :: bs => jeq a b && jeqList as bs
  | _, _ => false

/-- Elementwise equality of JSON object bindings. -/
def jeqKvs : List (String × Json) → List (String × Json) → Bool
  | [], [] => true
  | (k1, v1) :: as, (k2, v2) :: bs => k1 == k2 && jeq v1 v2 && jeqKvs as bs
  | _, _ => false

end

instance : BEq Json := ⟨jeq⟩

/-- Comparison of a JSON value against a string literal succeeds
exactly for the equal string value. -/
theorem jeq_str_iff (j : Json) (k : String) : (j == .str k) = true ↔ j = .str k := by
  cases j <;> simp [BEq.beq, jeq]

/-- Python exceptions that can escape the code under study:
AttributeError (calling .get / .replace on a value without that method)
and TypeError (str.join over non-string items, sorted over mixed types). -/
inductive PyErr where
  | attributeError : PyErr
  | typeError : PyErr
deriving BEq, DecidableEq

/-- Python truthiness of a JSON value (bool(x)). -/
def truthy : Json → Bool
  | .null => false
  | .bool b => b
  | .num n => n != 0
  | .str s => s != ""
  | .arr xs => !xs.isEmpty
  | .obj kvs => !kvs.isEmpty

/-- dict.get(k, d) on an object's key-value list (first binding wins). -/
def jlookup (kvs : List (String × Json)) (k : String) (d : Json) : Json :=
  match kvs.find? (fun p => p.1 == k) with
  | some p => p.2
  | none => d

/-- Python str whitespace (the ASCII fragment of the \s class used by
str.strip and the regular expressions in the script). -/
def isSpacePy (c : Char) : Bool :=
  c = ' ' || c = '\t' || c = '\n' || c = '\r' || c = '\x0b' || c = '\x0c'

/-- str.strip(): remove leading and trailing whitespace. -/
def pyStrip (s : String) : String :=
  String.mk (((s.toList.dropWhile isSpacePy).reverse.dropWhile isSpacePy).reverse)

/-- str.lower() restricted to the ASCII letters that occur in the data. -/
def lowerStr (s : String) : String :=
  String.mk (s.toList.map Char.toLower)

/-- Test whether the pattern list is a prefix of the character list. -/
def litAt : List Char → List Char → Bool
  | [], _ => true
  | _ :: _, [] => false
  | p :: ps, c :: cs => p = c && litAt ps cs

/-- Python substring containment: needle in haystack. -/
def containsSub (n : List Char) : List Char → Bool
  | [] => litAt n []
  | c :: cs => litAt n (c :: cs) || containsSub n cs

/-- Consume a literal prefix, returning the remainder on success. -/
def eatLit : List Char → List Char → Option (List Char)
  | [], s => some s
  | _ :: _, [] => none
  | p :: ps, c :: cs => if p = c then eatLit ps cs else none

/-- The lazy group of the cron regex: starting with a mandatory first
character, find the shortest nonempty run of non-newline characters
followed by a literal closing bracket; returns the group and the
remainder after the bracket (the semantics of a final non-greedy
dot-plus followed by the bracket literal). -/
def grp (first : Char) : List Char → Option (List Char × List Char)
  | [] => none
  | c :: cs =>
    if first = '\n' then none
    else if c = ']' then some ([first], cs)
    else
      match grp c cs with
      | some p => some (first :: p.1, p.2)
      | none => none

/-- Start the lazy group at the head of the list. -/
def grpStart : List Char → Option (List Char × List Char)
  | [] => none
  | c :: cs => grp c cs

/-- Backtracking over the greedy whitespace-plus: wsRev holds, last
first, the trailing whitespace characters that may be given back to
the following lazy group. -/
def tryK2Aux : List Char → List Char → Option (List Char × List Char)
  | [], r => grpStart r
  | w :: wsRev2, r =>
    match grpStart r with
    | some gr => some gr
    | none => tryK2Aux wsRev2 (w :: r)

/-- Match, after the literal tag has been consumed, one or more
non-whitespace characters, one or more whitespace characters (greedy,
with backtracking), the lazily matched group and the closing bracket. -/
def cronTail (r0 : List Char) : Option (List Char × List Char) :=
  if (r0.takeWhile (fun c => !isSpacePy c)).isEmpty then none
  else if ((r0.drop (r0.takeWhile (fun c => !isSpacePy c)).length).takeWhile isSpacePy).isEmpty
  then none
  else
    tryK2Aux
      (((r0.drop (r0.takeWhile (fun c => !isSpacePy c)).length).takeWhile isSpacePy).drop
        1).reverse
      ((r0.drop (r0.takeWhile (fun c => !isSpacePy c)).length).drop
        ((r0.drop (r0.takeWhile (fun c => !isSpacePy c)).length).takeWhile isSpacePy).length)

/-- Attempt to match the cron-marker regex at the head of the list:
the literal tag, one or more non-whitespace characters, one or more
whitespace characters, a lazily matched group, and a closing bracket.
On success returns the captured group and the remainder after the
closing bracket. -/
def matchCronHere (s : List Char) : Option (List Char × List Char) :=
  match eatLit "[cron:".toList s with
  | none => none
  | some r0 => cronTail r0

theorem grp_length {a : Char} {l g r : List Char}
    (h : grp a l = some (g, r)) : r.length < l.length := by
  induction l generalizing a g r with
  | nil => simp [grp] at h
  | cons c cs ih =>
    simp only [grp] at h
    split at h
    · exact absurd h (by simp)
    · split at h
      · cases h; simp
      · cases hg : grp c cs with
        | none => rw [hg] at h; cases h
        | some p =>
          rw [hg] at h
          cases h
          have := ih (g := p.1) (r := p.2) (by rw [hg])
          simp only [List.length_cons]
          omega

theorem grpStart_length {l g r : List Char}
    (h : grpStart l = some (g, r)) : r.length < l.length := by
  cases l with
  | nil => simp [grpStart] at h
  | cons c cs =>
    have := grp_length (a := c) (l := cs) (g := g) (r := r) h
    simp only [List.length_cons]
    omega

theorem tryK2Aux_length {wsRev r g rest : List Char}
    (h : tryK2Aux wsRev r = some (g, rest)) :
    rest.length < wsRev.length + r.length := by
  induction wsRev generalizing r with
  | nil =>
    simp only [tryK2Aux] at h
    have := grpStart_length h
    omega
  | cons w ws ih =>
    simp only [tryK2Aux] at h
    cases hg : grpStart r with
    | none =>
      rw [hg] at h
      have := ih (r := w :: r) h
      simp only [List.length_cons] at *
      omega
    | some p =>
      rw [hg] at h
      cases h
      have := grpStart_length hg
      simp only [List.length_cons]
      omega

theorem eatLit_length {p s r : List Char}
    (h : eatLit p s = some r) : r.length + p.length = s.length := by
  induction p generalizing s with
  | nil => simp [eatLit] at h; simp [h]
  | cons a ps ih =>
    cases s with
    | nil => simp [eatLit] at h
    | cons c cs =>
      simp only [eatLit] at h
      split at h
      · have := ih h
        simp only [List.length_cons]
        omega
      · cases h

theorem cronTail_length {r0 g rest : List Char}
    (h : cronTail r0 = some (g, rest)) : rest.length < r0.length := by
  unfold cronTail at h
  split at h
  · cases h
  · split at h
    · cases h
    · have h2 := tryK2Aux_length h
      have hns1 : 1 ≤ (r0.takeWhile (fun c => !isSpacePy c)).length := by
        have hns : ¬ (r0.takeWhile (fun c => !isSpacePy c)).isEmpty := by assumption
        cases hx : r0.takeWhile (fun c => !isSpacePy c) with
        | nil => rw [hx] at hns; simp at hns
        | cons a b => simp
      have hws1 : 1 ≤ ((r0.drop (r0.takeWhile (fun c => !isSpacePy c)).length).takeWhile
          isSpacePy).length := by
        have hws : ¬ ((r0.drop (r0.takeWhile (fun c => !isSpacePy c)).length).takeWhile
            isSpacePy).isEmpty := by assumption
        cases hx : (r0.drop (r0.takeWhile (fun c => !isSpacePy c)).length).takeWhile
            isSpacePy with
        | nil => rw [hx] at hws; simp at hws
        | cons a b => simp
      have hdrop : ((r0.drop (r0.takeWhile (fun c => !isSpacePy c)).length).takeWhile
          isSpacePy).length ≤ (r0.drop (r0.takeWhile (fun c => !isSpacePy c)).length).length :=
        ((r0.drop (r0.takeWhile (fun c => !isSpacePy c)).length).takeWhile_sublist
          isSpacePy).length_le
      have hr1 : (r0.drop (r0.takeWhile (fun c => !isSpacePy c)).length).length =
          r0.length - (r0.takeWhile (fun c => !isSpacePy c)).length :=
        List.length_drop _ _
      simp only [List.length_reverse, List.length_drop] at h2
      omega

theorem matchCronHere_length {s g rest : List Char}
    (h : matchCronHere s = some (g, rest)) : rest.length < s.length := by
  unfold matchCronHere at h
  cases he : eatLit "[cron:".toList s with
  | none => rw [he] at h; cases h
  | some r0 =>
    rw [he] at h
    have h1 := cronTail_length h
    have h3 := eatLit_length he
    have hlen6 : ("[cron:".toList).length = 6 := by decide
    omega

/-- re.search of the cron pattern: scan start positions left to right
and return the first match's captured group. -/
def cronSearch : List Char → Option (List Char)
  | [] => none
  | c :: cs =>
    match matchCronHere (c :: cs) with
    | some p => some p.1
    | none => cronSearch cs

/-- Fuelled scan of re.sub for the cron pattern followed by greedy
trailing whitespace: each successful match consumes the match and its
trailing whitespace, each failure keeps one character; the fuel only
bounds the recursion and one unit per remaining character suffices. -/
def cronSubF : Nat → List Char → List Char
  | _, [] => []
  | 0, s => s
  | fuel + 1, c :: cs =>
    match matchCronHere (c :: cs) with
    | some p => cronSubF fuel (p.2.dropWhile isSpacePy)
    | none => c :: cronSubF fuel cs

/-- re.sub of the cron pattern followed by greedy trailing whitespace,
replacing every non-overlapping occurrence with the empty string. -/
def cronSub (s : List Char) : List Char :=
  cronSubF s.length s

/-- Any fuel of at least the list length gives the same scan result,
so the fuel in cronSub is never exhausted. -/
theorem cronSubF_fuel (fuel1 fuel2 : Nat) (s : List Char)
    (h1 : s.length ≤ fuel1) (h2 : s.length ≤ fuel2) :
    cronSubF fuel1 s = cronSubF fuel2 s := by
  induction fuel1 generalizing fuel2 s with
  | zero =>
    have : s = [] := by
      cases s with
      | nil => rfl
      | cons c cs => simp at h1
    subst this
    cases fuel2 <;> rfl
  | succ f1 ih =>
    cases s with
    | nil => cases fuel2 <;> rfl
    | cons c cs =>
      cases fuel2 with
      | zero => simp at h2
      | succ f2 =>
        simp only [cronSubF]
        cases hm : matchCronHere (c :: cs) with
        | some p =>
          have hlt := matchCronHere_length hm
          have hdw : (p.2.dropWhile isSpacePy).length ≤ p.2.length :=
            (List.dropWhile_sublist _).length_le
          simp only [List.length_cons] at *
          exact ih f2 (p.2.dropWhile isSpacePy) (by omega) (by omega)
        | none =>
          simp only [List.length_cons] at *
          rw [ih f2 cs (by omega) (by omega)]

/-- String form of the cron-marker search (group 1 of the first match). -/
def cronSearchStr (s : String) : Option String :=
  (cronSearch s.toList).map String.mk

/-- String form of cron-marker removal. -/
def cronSubStr (s : String) : String :=
  String.mk (cronSub s.toList)

/-- String form of substring containment (the Python in operator). -/
def containsSubStr (n s : String) : Bool :=
  containsSub n.toList s.toList

/-- Days from 1970-01-01 of the civil date y-m-d (proleptic Gregorian,
the days-from-civil algorithm used by calendar arithmetic). -/
def daysFromCivil (y : Int) (m d : Nat) : Int :=
  let y2 : Int := if m ≤ 2 then y - 1 else y
  let era : Int := y2.fdiv 400
  let yoe : Int := y2 - era * 400
  let mp : Int := if 3 ≤ m then (m : Int) - 3 else (m : Int) + 9
  let doy : Int := (153 * mp + 2).fdiv 5 + (d : Int) - 1
  let doe : Int := yoe * 365 + yoe.fdiv 4 - yoe.fdiv 100 + doy
  era * 146097 + doe - 719468

/-- Gregorian leap-year test. -/
def isLeap (y : Int) : Bool :=
  y % 4 == 0 && (y % 100 != 0 || y % 400 == 0)

/-- Number of days in month m of year y. -/
def daysInMonth (y : Int) (m : Nat) : Nat :=
  if m = 2 then (if isLeap y then 29 else 28)
  else if m = 4 || m = 6 || m = 9 || m = 11 then 30
  else 31

/-- Decimal digit value of a character, if it is a digit. -/
def digitVal (c : Char) : Option Nat :=
  if c.isDigit then some (c.toNat - 48) else none

/-- Read exactly two decimal digits. -/
def read2 : List Char → Option (Nat × List Char)
  | a :: b :: r =>
    match digitVal a, digitVal b with
    | some x, some y => some (x * 10 + y, r)
    | _, _ => none
  | _ => none

/-- Read exactly four decimal digits. -/
def read4 : List Char → Option (Nat × List Char)
  | a :: b :: c :: d :: r =>
    match digitVal a, digitVal b, digitVal c, digitVal d with
    | some w, some x, some y, some z => some (((w * 10 + x) * 10 + y) * 10 + z, r)
    | _, _, _, _ => none
  | _ => none

/-- Expect one specific character. -/
def expectCh (e : Char) : List Char → Option (List Char)
  | c :: r => if c = e then some r else none
  | [] => none

/-- Read the optional HH:MM:SS part after the date separator; returns
seconds from midnight. Empty input means midnight. -/
def readTime (cs : List Char) : Option (Nat × List Char) :=
  match read2 cs with
  | none => none
  | some (h, r1) =>
    if 24 ≤ h then none
    else
      match expectCh ':' r1 with
      | none => some (h * 3600, r1)
      | some r2 =>
        match read2 r2 with
        | none => none
        | some (mi, r3) =>
          if 60 ≤ mi then none
          else
            match expectCh ':' r3 with
            | none => some (h * 3600 + mi * 60, r3)
            | some r4 =>
              match read2 r4 with
              | none => none
              | some (se, r5) =>
                if 60 ≤ se then none else some (h * 3600 + mi * 60 + se, r5)

/-- Read the optional UTC-offset suffix sHH:MM; returns offset seconds. -/
def readOffset (cs : List Char) : Option Int :=
  match cs with
  | [] => some 0
  | sgn :: r1 =>
    if sgn = '+' || sgn = '-' then
      match read2 r1 with
      | none => none
      | some (oh, r2) =>
        match expectCh ':' r2 with
        | none => none
        | some r3 =>
          match read2 r3 with
          | none => none
          | some (om, r4) =>
            if r4.isEmpty && oh ≤ 23 && om ≤ 59 then
              some (if sgn = '-' then -((oh : Int) * 3600 + om * 60)
                    else (oh : Int) * 3600 + om * 60)
            else none
    else none

/-- Model of datetime.fromisoformat restricted to the shapes the log
timestamps take: YYYY-MM-DD, optionally followed by a separator and
HH[:MM[:SS]], optionally followed by a numeric UTC offset. Returns
seconds since the Unix epoch (a naive value is taken at offset zero);
none models ValueError. -/
def fromIso (s : String) : Option Int :=
  match read4 s.toList with
  | none => none
  | some (y, r1) =>
    match expectCh '-' r1 with
    | none => none
    | some r2 =>
      match read2 r2 with
      | none => none
      | some (mo, r3) =>
        match expectCh '-' r3 with
        | none => none
        | some r4 =>
          match read2 r4 with
          | none => none
          | some (d, r5) =>
            if mo < 1 || 12 < mo || d < 1 || daysInMonth (y : Int) mo < d then none
            else
              match r5 with
              | [] => some (daysFromCivil (y : Int) mo d * 86400)
              | sep :: r6 =>
                if sep = 'T' || sep = ' ' then
                  match readTime r6 with
                  | none => none
                  | some (secs, r7) =>
                    match readOffset r7 with
                    | none => none
                    | some off =>
                      some (daysFromCivil (y : Int) mo d * 86400 + (secs : Int) - off)
                else none

/-- timestamp.replace applied to the single-character needle Z, as in
the script: every Z becomes +00:00. -/
def zTo0 (s : String) : String :=
  String.mk ((s.toList.map (fun c => if c = 'Z' then "+00:00".toList else [c])).flatten)

/-- The timestamp-parsing composite used by parse_session:
datetime.fromisoformat(timestamp.replace(Z, +00:00)), as epoch seconds. -/
def parseTs (ts : String) : Option Int :=
  fromIso (zTo0 ts)

theorem daysFromCivil_epoch : daysFromCivil 1970 1 1 = 0 := by decide

theorem daysFromCivil_mar2024 : daysFromCivil 2024 3 15 = 19797 := by decide

theorem parseTs_sample : parseTs "2024-03-14T16:30:00Z" = some 1710433800 := by decide

/-- One entry of Session.messages: the role and raw timestamp are
carried through as the JSON values found in the record, the text is
the flattened string. -/
structure Message where
  role : Json
  text : String
  timestamp : Json

/-- The Session record built by parse_session: identifier, first and
last parsed timestamps (epoch seconds), model label, ordered messages,
de-duplicated tool names, and the cron flag and name. -/
structure Session where
  id : Json
  start_time : Option Int
  end_time : Option Int
  model : Json
  messages : List Message
  tools_used : List Json
  is_cron : Bool
  cron_name : String

/-- The fresh Session dictionary parse_session starts from. -/
def initSession : Session :=
  { id := .str "", start_time := none, end_time := none, model := .str "",
    messages := [], tools_used := [], is_cron := false, cron_name := "" }

/-- The " ".join of a list of strings. -/
def joinSp : List String → String
  | [] => ""
  | [x] => x
  | x :: xs => x ++ " " ++ joinSp xs

/-- The ", ".join of a list of strings. -/
def joinComma : List String → String
  | [] => ""
  | [x] => x
  | x :: xs => x ++ ", " ++ joinComma xs

/-- Select the content fragments that are mappings tagged type text,
yielding their text fields (c.get with default empty string). -/
def fragSel (xs : List Json) : List Json :=
  xs.filterMap fun c =>
    match c with
    | .obj kvs =>
      if jlookup kvs "type" .null == .str "text" then some (jlookup kvs "text" (.str ""))
      else none
    | _ => none

/-- str.join raises TypeError on the first non-string item; otherwise
returns the strings in order. -/
def strsOf : List Json → Except PyErr (List String)
  | [] => .ok []
  | .str s :: rest => (strsOf rest).map (s :: ·)
  | _ :: _ => .error .typeError

/-- The text-flattening helper _extract_text: a string content value is
stripped; a list content value is the space-joined concatenation of its
text-tagged fragment texts, then stripped (TypeError if a selected
fragment text is not a string); any other shape flattens to empty. -/
def extract_text : Json → Except PyErr String
  | .str s => .ok (pyStrip s)
  | .arr xs => (strsOf (fragSel xs)).map (fun l => pyStrip (joinSp l))
  | _ => .ok ""

/-- The timestamp bookkeeping of parse_session: a truthy timestamp must
be a string (AttributeError otherwise); a parseable string sets
start_time when unset and always overwrites end_time; an unparseable
string is ignored (ValueError caught). -/
def tsUpdate (s : Session) (timestamp : Json) : Except PyErr Session :=
  if truthy timestamp then
    match timestamp with
    | .str ts =>
      match parseTs ts with
      | some t =>
        .ok { s with
          start_time := match s.start_time with | none => some t | some u => some u,
          end_time := some t }
      | none => .ok s
    | _ => .error .attributeError
  else .ok s

/-- The per-type dispatch of parse_session on one decoded record. -/
def dispatch (s : Session) (kvs : List (String × Json)) (obj_type timestamp : Json) :
    Except PyErr Session :=
  if obj_type == .str "session" then
    .ok { s with id := jlookup kvs "id" (.str "") }
  else if obj_type == .str "model_change" then
    .ok { s with model := jlookup kvs "modelId" (.str "") }
  else if obj_type == .str "message" then
    match jlookup kvs "message" (.obj []) with
    | .obj mkvs =>
      match extract_text (jlookup mkvs "content" (.str "")) with
      | .error e => .error e
      | .ok text =>
        if text == "" then .ok s
        else
          let role := jlookup mkvs "role" (.str "")
          let s2 :=
            if role == .str "user" && containsSubStr "[cron:" text then
              { s with is_cron := true,
                       cron_name := (cronSearchStr text).getD s.cron_name }
            else s
          .ok { s2 with messages := s2.messages ++ [{ role := role, text := text,
                                                      timestamp := timestamp }] }
    | _ => .error .attributeError
  else if obj_type == .str "tool_use" then
    let name := jlookup kvs "name" (.str "")
    if truthy name && !(s.tools_used.contains name) then
      .ok { s with tools_used := s.tools_used ++ [name] }
    else .ok s
  else .ok s

/-- Process one log line. none stands for a line that is skipped
(blank after stripping, or not decodable as JSON); a decoded value
that is not an object raises AttributeError at the first .get. -/
def stepLine (s : Session) (l : Option Json) : Except PyErr Session :=
  match l with
  | none => .ok s
  | some (.obj kvs) =>
    match tsUpdate s (jlookup kvs "timestamp" (.str "")) with
    | .error e => .error e
    | .ok s1 => dispatch s1 kvs (jlookup kvs "type" (.str "")) (jlookup kvs "timestamp" (.str ""))
  | some _ => .error .attributeError

/-- parse_session: fold the decoded lines of one JSONL log, in order,
into a Session, propagating any Python exception. -/
def parse_session (log : List (Option Json)) : Except PyErr Session :=
  log.foldlM stepLine initSession

/-- str() of a JSON value as interpolated by the f-strings of the
renderer; scalars follow Python exactly, containers are abbreviated
(no rendered session in this development carries a container here). -/
def pyStr : Json → String
  | .str s => s
  | .num n => toString n
  | .bool b => if b then "True" else "False"
  | .null => "None"
  | .arr _ => "[…]"
  | .obj _ => "{…}"

/-- Zero-padded two-digit rendering of a number in [0, 99]. -/
def pad2 (n : Int) : String :=
  if n < 10 then "0" ++ toString n else toString n

/-- strftime %H:%M of an epoch instant shifted to the local fixed
offset (hours east of UTC). -/
def timeHM (offHours : Int) (t : Int) : String :=
  let lsec := (t + offHours * 3600).emod 86400
  pad2 (lsec.fdiv 3600) ++ ":" ++ pad2 ((lsec.emod 3600).fdiv 60)

/-- Test whether a string starts with the markup-start character. -/
def startsLt (s : String) : Bool :=
  match s.toList with
  | '<' :: _ => true
  | _ => false

/-- The per-message text transform of generate_digest, in source
order: truncate to 500 characters plus an ellipsis first, then remove
every cron-marker occurrence and its trailing whitespace. -/
def renderMsgText (t : String) : String :=
  let l := t.toList
  let l2 := if 500 < l.length then l.take 500 ++ ['…'] else l
  String.mk (cronSub l2)

/-- The transcript lines of generate_digest: a user line for user
messages, an assistant line for assistant messages whose transformed
text is nonempty and does not start with the markup character, nothing
for other roles; every message is followed by a blank line. -/
def msgLines (msgs : List Message) : List String :=
  msgs.flatMap fun m =>
    let text := renderMsgText m.text
    (if m.role == .str "user" then ["**👤 User**: " ++ text]
     else if m.role == .str "assistant" && text != "" && !startsLt text then
       ["**🤖 Assistant**: " ++ text]
     else []) ++ [""]

/-- The tools metadata line: absent when no tool was used, otherwise
the comma-joined first ten names (TypeError if a name is not a
string, as raised by str.join). -/
def toolsLine (ts : List Json) : Except PyErr (List String) :=
  if ts.isEmpty then .ok []
  else
    match strsOf (ts.take 10) with
    | .ok l => .ok ["- **Tools**: " ++ joinComma l]
    | .error e => .error e

/-- The lines of generate_digest for one Session: header (local time
of day or a placeholder, kind tag, title), model line, optional tools
line, a blank line, then the transcript. -/
def digestLines (offHours : Int) (s : Session) : Except PyErr (List String) :=
  let time_str := match s.start_time with | some t => timeHM offHours t | none => "??:??"
  let kind := if s.is_cron then "🤖 Cron" else "💬 Chat"
  let title := if s.is_cron then s.cron_name else "Session"
  match toolsLine s.tools_used with
  | .error e => .error e
  | .ok tl =>
    .ok (["### " ++ time_str ++ " " ++ kind ++ ": " ++ title,
          "- **Model**: " ++ pyStr s.model] ++ tl ++ [""] ++ msgLines s.messages)

/-- The "\n".join of a list of lines. -/
def joinNl : List String → String
  | [] => ""
  | [x] => x
  | x :: xs => x ++ "\n" ++ joinNl xs

/-- generate_digest: the joined text block for one Session. -/
def generate_digest (offHours : Int) (s : Session) : Except PyErr String :=
  (digestLines offHours s).map joinNl

/-- A calendar date in local time, as produced by strptime on the
target-date argument. -/
structure CivilDate where
  y : Int
  m : Nat
  d : Nat

/-- The day number of a civil date (dates are compared through this
bijection onto days from the epoch). -/
def dayNumber (td : CivilDate) : Int :=
  daysFromCivil td.y td.m td.d

/-- The heartbeat-candidate test of process_date: a cron session whose
cron name contains the substring heartbeat case-insensitively. -/
def isHb (s : Session) : Bool :=
  s.is_cron && containsSubStr "heartbeat" (lowerStr s.cron_name)

/-- The substance test of process_date: some assistant message with
truthy text that is none of the sentinel values and does not start
with the markup character. -/
def hasSubstance (s : Session) : Bool :=
  s.messages.any fun m =>
    m.role == .str "assistant" && m.text != "" &&
      !(m.text == "HEARTBEAT_OK" || m.text == "NO_REPLY" || m.text == "") &&
      !startsLt m.text

/-- The Noise Classifier of process_date: drop sessions with fewer
than two messages, and drop heartbeat candidates without substance. -/
def noiseKeep (s : Session) : Bool :=
  !(s.messages.length < 2 : Bool) && !(isHb s && !hasSubstance s)

/-- The local calendar-day number of an epoch instant under a fixed
offset in hours (astimezone followed by .date()). -/
def localDayNumber (offHours t : Int) : Int :=
  (t + offHours * 3600).fdiv 86400

/-- The per-session part of the Selector: a session is kept for the
target date exactly when it has a start time whose local calendar date
equals the target date and it passes the Noise Classifier. -/
def keepForDate (offHours : Int) (td : CivilDate) (s : Session) : Bool :=
  match s.start_time with
  | none => false
  | some t => localDayNumber offHours t == dayNumber td && noiseKeep s

/-- UTC epoch second of local midnight at the start of the target date. -/
def targetStartUtc (offHours : Int) (td : CivilDate) : Int :=
  dayNumber td * 86400 - offHours * 3600

/-- UTC epoch second of 23:59:59 local at the end of the target date. -/
def targetEndUtc (offHours : Int) (td : CivilDate) : Int :=
  targetStartUtc offHours td + 86399

/-- The modification-time pre-filter of process_date: skip files whose
mtime lies more than one day outside the target-date UTC bounds. -/
def mtimeOk (offHours : Int) (td : CivilDate) (mtime : Int) : Bool :=
  !(mtime < targetStartUtc offHours td - 86400 ||
    targetEndUtc offHours td + 86400 < mtime)

/-- The Selector loop of process_date over (mtime, decoded log) pairs:
parse each candidate file, keep sessions for the target date, in
directory-scan order; a parse exception propagates. -/
def selectSessions (offHours : Int) (td : CivilDate)
    (files : List (Int × List (Option Json))) : Except PyErr (List Session) :=
  files.foldlM
    (fun acc f =>
      if mtimeOk offHours td f.1 then
        match parse_session f.2 with
        | .error e => .error e
        | .ok s => .ok (if keepForDate offHours td s then acc ++ [s] else acc)
      else .ok acc)
    []

/-- The sort key of process_date: the start time, or the epoch second
of the aware datetime.min for a session without one. -/
def sortKey (s : Session) : Int :=
  s.start_time.getD (daysFromCivil 1 1 1 * 86400)

/-- Zero-padded four-digit year. -/
def pad4 (n : Int) : String :=
  if n < 10 then "000" ++ toString n
  else if n < 100 then "00" ++ toString n
  else if n < 1000 then "0" ++ toString n
  else toString n

/-- The YYYY-MM-DD rendering of the target date. -/
def dateStr (td : CivilDate) : String :=
  pad4 td.y ++ "-" ++ pad2 (td.m : Int) ++ "-" ++ pad2 (td.d : Int)

/-- The insertion-order union of the tool names of all sessions, as
the set accumulation of process_date (duplicates suppressed). -/
def allTools (ss : List Session) : List Json :=
  ss.foldl (fun acc s => s.tools_used.foldl
    (fun a t => if a.contains t then a else a ++ [t]) acc) []

/-- sorted() over the tool names: string sort, TypeError on a
non-string element. -/
def sortedTools (ts : List Json) : Except PyErr (List String) :=
  match strsOf ts with
  | .error e => .error e
  | .ok l => .ok (l.mergeSort (fun a b => decide (a ≤ b)))

/-- The output document intent of process_date: the digest file name
and its full text content. -/
structure DigestOut where
  fname : String
  content : String

/-- process_date: run the Selector, sort the survivors by start time
(stable), and either report nothing to write (no qualifying session)
or produce the single output document with title, statistics and the
rendered blocks separated by horizontal rules. -/
def process_date (offHours : Int) (td : CivilDate)
    (files : List (Int × List (Option Json))) : Except PyErr (Option DigestOut) :=
  match selectSessions offHours td files with
  | .error e => .error e
  | .ok picked =>
    let ss := picked.mergeSort (fun a b => decide (sortKey a ≤ sortKey b))
    if ss.isEmpty then .ok none
    else
      let total_msgs := (ss.map (fun s => s.messages.length)).sum
      let cron_count := (ss.filter (fun s => s.is_cron)).length
      let chat_count := ss.length - cron_count
      let tools := allTools ss
      match sortedTools tools with
      | .error e => .error e
      | .ok toolNames =>
        match ss.mapM (generate_digest offHours) with
        | .error e => .error e
        | .ok blocks =>
          let headLines :=
            ["# Session Digest: " ++ dateStr td, "",
             toString ss.length ++ " sessions", "",
             "## 📊 Stats",
             "- Chat: " ++ toString chat_count ++ " | Cron: " ++ toString cron_count,
             "- Messages: " ++ toString total_msgs] ++
            (if tools.isEmpty then [] else ["- Tools: " ++ joinComma toolNames]) ++
            ["", "## 📝 Sessions", ""]
          let bodyLines := blocks.flatMap (fun b => [b, "---", ""])
          .ok (some { fname := dateStr td ++ ".md",
                      content := joinNl (headLines ++ bodyLines) })

/-- C8: every Session containing exactly one message (fewer than two
in total) is excluded by the Noise Classifier, regardless of its
content. -/
theorem c8_single_message_excluded (s : Session) (h : s.messages.length = 1) :
    noiseKeep s = false := by
  simp [noiseKeep, h]

/-- Witness for C8 on a concrete one-message session. -/
theorem c8_witness :
    noiseKeep { initSession with
      messages := [{ role := .str "user", text := "hi", timestamp := .str "" }] } = false :=
  c8_single_message_excluded _ rfl

/-- C9: when the Selector yields zero qualifying sessions for the
target date, process_date produces no output document at all (the
only writes in the source occur after the emptiness check). -/
theorem c9_empty_selection_writes_nothing (offHours : Int) (td : CivilDate)
    (files : List (Int × List (Option Json)))
    (h : selectSessions offHours td files = .ok []) :
    process_date offHours td files = .ok none := by
  simp [process_date, h]

/-- Witness for C9 on an empty directory scan. -/
theorem c9_witness :
    selectSessions 8 ⟨2024, 3, 15⟩ [] = .ok [] ∧
      process_date 8 ⟨2024, 3, 15⟩ [] = .ok none :=
  ⟨rfl, c9_empty_selection_writes_nothing 8 ⟨2024, 3, 15⟩ [] rfl⟩

/-- C7: selecting for target date 2024-03-15 at local offset +8, a
session whose UTC start instant is 2024-03-14T16:30:00Z (and which
passes the Noise Classifier) is kept, and any session whose UTC start
instant is 2024-03-14T15:59:59Z is rejected: local-date equality
decides membership. -/
theorem c7_local_date_selection (s1 s2 : Session)
    (h1 : s1.start_time = parseTs "2024-03-14T16:30:00Z")
    (hn : noiseKeep s1 = true)
    (h2 : s2.start_time = parseTs "2024-03-14T15:59:59Z") :
    keepForDate 8 ⟨2024, 3, 15⟩ s1 = true ∧ keepForDate 8 ⟨2024, 3, 15⟩ s2 = false := by
  have e1 : parseTs "2024-03-14T16:30:00Z" = some 1710433800 := by decide
  have e2 : parseTs "2024-03-14T15:59:59Z" = some 1710431999 := by decide
  rw [e1] at h1
  rw [e2] at h2
  have d1 : (localDayNumber 8 1710433800 == dayNumber ⟨2024, 3, 15⟩) = true := by decide
  have d2 : (localDayNumber 8 1710431999 == dayNumber ⟨2024, 3, 15⟩) = false := by decide
  constructor
  · simp [keepForDate, h1, d1, hn]
  · simp [keepForDate, h2, d2]

/-- Concrete sessions witnessing C7. -/
def c7sess1 : Session :=
  { initSession with
    start_time := some 1710433800,
    messages := [{ role := .str "user", text := "hi", timestamp := .str "" },
                 { role := .str "assistant", text := "hello", timestamp := .str "" }] }

/-- Second concrete session witnessing C7. -/
def c7sess2 : Session :=
  { c7sess1 with start_time := some 1710431999 }

/-- Witness for C7 at the two concrete instants. -/
theorem c7_witness :
    keepForDate 8 ⟨2024, 3, 15⟩ c7sess1 = true ∧
      keepForDate 8 ⟨2024, 3, 15⟩ c7sess2 = false :=
  c7_local_date_selection c7sess1 c7sess2 (by decide) (by decide) (by decide)

/-- The one-record log of C5. -/
def c5log : List (Option Json) :=
  [some (.obj [("type", .str "message"),
               ("message", .obj [("role", .str "user"),
                                 ("content", .str "[cron:job1 Daily Report] hello")])])]

/-- C5: parsing a log with one user message whose text is the cron
marker followed by hello yields is_cron true, cron_name Daily Report,
and rendering that Session gives a user transcript line reading
exactly hello, the marker and its trailing whitespace stripped. -/
theorem c5_marker_parse_and_render :
    (parse_session c5log).map
        (fun s => (s.is_cron, s.cron_name, digestLines 8 s)) =
      .ok (true, "Daily Report",
        .ok ["### ??:?? 🤖 Cron: Daily Report", "- **Model**: ", "",
             "**👤 User**: hello", ""]) := by
  rfl

/-- The C2 input: a cron marker of eleven characters followed by six
hundred characters of text. -/
def c2text : String := "[cron:j N] " ++ String.mk (List.replicate 600 'a')

/-- C2 counterexample: on c2text the claim predicts stripping before
truncation, i.e. five hundred remaining characters plus the ellipsis;
the renderer actually truncates the raw text first and strips the
marker afterwards, leaving four hundred and eighty-nine characters
plus the ellipsis. -/
theorem c2_counterexample :
    renderMsgText c2text = String.mk (List.replicate 489 'a') ++ "…" ∧
      renderMsgText c2text ≠ String.mk (List.replicate 500 'a') ++ "…" := by
  constructor
  · decide
  · decide

/-- C2 amended: truncation to five hundred characters plus an ellipsis
is applied before cron-marker stripping: a marker-free six-hundred
character text renders as its first five hundred characters plus the
ellipsis, and with an eleven-character marker prefix the five-hundred
character cut applies to the raw text and the marker is stripped from
the truncated text afterwards. -/
theorem c2_truncate_before_strip :
    renderMsgText (String.mk (List.replicate 600 'a')) =
        String.mk (List.replicate 500 'a') ++ "…" ∧
      renderMsgText c2text = String.mk (List.replicate 489 'a') ++ "…" := by
  constructor
  · decide
  · decide

/-- C1 counterexample: a line that is valid JSON but not an object (the
number five) makes parse_session raise AttributeError at the first
attribute access, so the parser does not return a Session for every
input log. -/
theorem c1_counterexample :
    parse_session [some (.num 5)] = .error .attributeError := rfl

/-- Test for a JSON string value. -/
def isStrJ : Json → Bool
  | .str _ => true
  | _ => false

/-- Well-typedness of a content value for flattening: every fragment
selected by the text tag must carry a string text field (otherwise
str.join raises TypeError). -/
def contentOk : Json → Bool
  | .arr xs =>
    xs.all fun c =>
      match c with
      | .obj kvs =>
        if jlookup kvs "type" .null == .str "text" then isStrJ (jlookup kvs "text" (.str ""))
        else true
      | _ => true
  | _ => true

/-- Well-typedness of one log line for exception-free parsing: skipped
lines are fine; a decoded line must be an object, a truthy timestamp
value must be a string, and a message record must carry an object
message whose content flattens without error. -/
def wfLine : Option Json → Bool
  | none => true
  | some (.obj kvs) =>
    (!truthy (jlookup kvs "timestamp" (.str "")) ||
      isStrJ (jlookup kvs "timestamp" (.str ""))) &&
    (!(jlookup kvs "type" (.str "") == .str "message") ||
      (match jlookup kvs "message" (.obj []) with
       | .obj mkvs => contentOk (jlookup mkvs "content" (.str ""))
       | _ => false))
  | some _ => false

theorem strsOf_ok {l : List Json} (h : ∀ j ∈ l, isStrJ j = true) :
    ∃ ss, strsOf l = .ok ss := by
  induction l with
  | nil => exact ⟨[], rfl⟩
  | cons a rest ih =>
    have ha : isStrJ a = true := h a (by simp)
    cases a with
    | str s =>
      obtain ⟨ss, hss⟩ := ih (fun j hj => h j (by simp [hj]))
      exact ⟨s :: ss, by simp [strsOf, hss, Except.map]⟩
    | null => simp [isStrJ] at ha
    | bool b => simp [isStrJ] at ha
    | num n => simp [isStrJ] at ha
    | arr xs => simp [isStrJ] at ha
    | obj kvs => simp [isStrJ] at ha

theorem fragSel_str {xs : List Json} (h : contentOk (.arr xs) = true) :
    ∀ j ∈ fragSel xs, isStrJ j = true := by
  intro j hj
  rw [fragSel, List.mem_filterMap] at hj
  obtain ⟨c, hc, hcj⟩ := hj
  rw [contentOk, List.all_eq_true] at h
  have hc2 := h c hc
  cases c with
  | obj kvs =>
    simp only at hcj hc2
    split at hcj
    · cases hcj; split at hc2 <;> simp_all
    · cases hcj
  | null => cases hcj
  | bool b => cases hcj
  | num n => cases hcj
  | str s => cases hcj
  | arr ys => cases hcj

theorem extract_text_ok {c : Json} (h : contentOk c = true) :
    ∃ t, extract_text c = .ok t := by
  cases c with
  | str s => exact ⟨pyStrip s, rfl⟩
  | arr xs =>
    obtain ⟨ss, hss⟩ := strsOf_ok (fragSel_str h)
    exact ⟨pyStrip (joinSp ss), by simp [extract_text, hss, Except.map]⟩
  | null => exact ⟨"", rfl⟩
  | bool b => exact ⟨"", rfl⟩
  | num n => exact ⟨"", rfl⟩
  | obj kvs => exact ⟨"", rfl⟩

theorem tsUpdate_ok {s : Session} {j : Json}
    (h : truthy j = true → isStrJ j = true) :
    ∃ s1, tsUpdate s j = .ok s1 := by
  cases htr : truthy j with
  | false => exact ⟨s, by simp [tsUpdate, htr]⟩
  | true =>
    have hstr := h htr
    cases j with
    | str ts =>
      cases hp : parseTs ts with
      | none => exact ⟨s, by simp [tsUpdate, htr, hp]⟩
      | some t =>
        exact ⟨{ s with
          start_time := match s.start_time with | none => some t | some u => some u,
          end_time := some t }, by simp [tsUpdate, htr, hp]⟩
    | null => simp [isStrJ] at hstr
    | bool b => simp [isStrJ] at hstr
    | num n => simp [isStrJ] at hstr
    | arr xs => simp [isStrJ] at hstr
    | obj kvs => simp [isStrJ] at hstr

theorem dispatch_ok {s : Session} {kvs : List (String × Json)} {ot ts : Json}
    (h : (ot == .str "message") = true →
      (match jlookup kvs "message" (.obj []) with
       | .obj mkvs => contentOk (jlookup mkvs "content" (.str ""))
       | _ => false) = true) :
    ∃ s2, dispatch s kvs ot ts = .ok s2 := by
  rw [dispatch]
  split
  · exact ⟨_, rfl⟩
  · split
    · exact ⟨_, rfl⟩
    · split
      · have hmsg := h (by assumption)
        cases hjm : jlookup kvs "message" (.obj []) with
        | obj mkvs =>
          rw [hjm] at hmsg
          dsimp only at hmsg
          dsimp only
          obtain ⟨t, ht⟩ := extract_text_ok hmsg
          rw [ht]
          dsimp only
          split
          · exact ⟨s, rfl⟩
          · exact ⟨_, rfl⟩
        | null => rw [hjm] at hmsg; simp at hmsg
        | bool b => rw [hjm] at hmsg; simp at hmsg
        | num n => rw [hjm] at hmsg; simp at hmsg
        | str a => rw [hjm] at hmsg; simp at hmsg
        | arr xs => rw [hjm] at hmsg; simp at hmsg
      · split
        · dsimp only
          split
          · exact ⟨_, rfl⟩
          · exact ⟨s, rfl⟩
        · exact ⟨s, rfl⟩

theorem stepLine_ok {l : Option Json} (hwf : wfLine l = true) (s : Session) :
    ∃ s2, stepLine s l = .ok s2 := by
  cases l with
  | none => exact ⟨s, rfl⟩
  | some j =>
    cases j with
    | obj kvs =>
      rw [wfLine, Bool.and_eq_true] at hwf
      obtain ⟨hts, hmsg⟩ := hwf
      obtain ⟨s1, hs1⟩ := tsUpdate_ok (s := s)
        (j := jlookup kvs "timestamp" (.str ""))
        (by intro htr
            simp only [htr, Bool.not_true, Bool.false_or] at hts
            exact hts)
      obtain ⟨s2, hs2⟩ := @dispatch_ok s1 kvs
        (jlookup kvs "type" (.str "")) (jlookup kvs "timestamp" (.str ""))
        (by intro hot
            simp only [hot, Bool.not_true, Bool.false_or] at hmsg
            exact hmsg)
      exact ⟨s2, by simp only [stepLine, hs1]; exact hs2⟩
    | null => simp [wfLine] at hwf
    | bool b => simp [wfLine] at hwf
    | num n => simp [wfLine] at hwf
    | str a => simp [wfLine] at hwf
    | arr xs => simp [wfLine] at hwf

/-- C1 amended: parse_session returns a Session without raising for
every well-typed log: every decoded line is a JSON object, a truthy
timestamp value is a string, and a message record carries an object
message whose text fragments hold string text. On lines outside this
set an exception can escape, as the counterexample shows. -/
theorem c1_wf_parse_total (log : List (Option Json))
    (h : ∀ l ∈ log, wfLine l = true) :
    ∃ s, parse_session log = .ok s := by
  rw [parse_session]
  suffices hgen : ∀ s0 : Session, ∃ s, List.foldlM stepLine s0 log = .ok s from hgen initSession
  induction log with
  | nil => intro s0; exact ⟨s0, rfl⟩
  | cons l ls ih =>
    intro s0
    obtain ⟨s1, hs1⟩ := stepLine_ok (h l (by simp)) s0
    obtain ⟨s, hs⟩ := ih (fun x hx => h x (by simp [hx])) s1
    exact ⟨s, by rw [List.foldlM_cons, hs1]; exact hs⟩

/-- The concrete well-typed log used by the C1 witness. -/
def c1log : List (Option Json) :=
  [some (Json.obj [("type", Json.str "message"),
      ("timestamp", Json.str "2024-03-14T16:30:00Z"),
      ("message", Json.obj [("role", Json.str "user"),
                            ("content", Json.str "hi")])])]

/-- Witness for C1 on a concrete well-typed log. -/
theorem c1_witness :
    (c1log.all wfLine = true) ∧ ∃ s, parse_session c1log = .ok s :=
  ⟨by decide,
   c1_wf_parse_total _ (by
    intro l hl
    rw [c1log, List.mem_singleton] at hl
    subst hl
    decide)⟩

/-- The parseable timestamp carried by a timestamp value: a nonempty
string that the timestamp parser accepts (the only case in which the
source updates the time fields without raising). -/
def jTs : Json → Option Int
  | .str ts => if ts == "" then none else parseTs ts
  | _ => none

/-- The parseable timestamp carried by one log line. -/
def tsOf : Option Json → Option Int
  | some (.obj kvs) => jTs (jlookup kvs "timestamp" (.str ""))
  | _ => none

/-- The flattened text of a user message record, at the dispatch level:
present exactly when the record type is message, the message value is
an object, the content flattens without error to nonempty text, and
the role is the user role. -/
def msgText2 (kvs : List (String × Json)) (ot : Json) : Option String :=
  if ot == .str "message" then
    match jlookup kvs "message" (.obj []) with
    | .obj mkvs =>
      match extract_text (jlookup mkvs "content" (.str "")) with
      | .ok t =>
        if t == "" then none
        else if jlookup mkvs "role" (.str "") == .str "user" then some t else none
      | .error _ => none
    | _ => none
  else none

/-- Dispatch-level test for a user message whose text contains the
cron-marker opening literal (the condition that sets is_cron). -/
def duserCron (kvs : List (String × Json)) (ot : Json) : Bool :=
  match msgText2 kvs ot with
  | some t => containsSubStr "[cron:" t
  | none => false

/-- Dispatch-level cron name carried by a record: the captured group
of the marker search, present only when the is_cron condition holds
and the search succeeds (only then is cron_name written). -/
def dname (kvs : List (String × Json)) (ot : Json) : Option String :=
  match msgText2 kvs ot with
  | some t => if containsSubStr "[cron:" t then cronSearchStr t else none
  | none => none

/-- Line-level test for a user message that sets is_cron. -/
def userCron : Option Json → Bool
  | some (.obj kvs) => duserCron kvs (jlookup kvs "type" (.str ""))
  | _ => false

/-- Line-level cron name written by a record, if any. -/
def nameOf : Option Json → Option String
  | some (.obj kvs) => dname kvs (jlookup kvs "type" (.str ""))
  | _ => none

theorem msgText2_not_message {kvs : List (String × Json)} {ot : Json}
    (h : (ot == .str "message") = false) : msgText2 kvs ot = none := by
  simp [msgText2, h]

theorem tsUpdate_char {s : Session} {j : Json} {s1 : Session}
    (h : tsUpdate s j = .ok s1) :
    s1.id = s.id ∧ s1.model = s.model ∧ s1.messages = s.messages ∧
    s1.tools_used = s.tools_used ∧ s1.is_cron = s.is_cron ∧ s1.cron_name = s.cron_name ∧
    (∀ t, jTs j = some t → s1.end_time = some t ∧
        s1.start_time = (match s.start_time with | none => some t | some u => some u)) ∧
    (jTs j = none → s1.start_time = s.start_time ∧ s1.end_time = s.end_time) := by
  cases j with
  | str ts =>
    simp only [tsUpdate, truthy] at h
    cases hne : ts == "" with
    | true =>
      have hts : ts = "" := by
        have := hne
        rwa [beq_iff_eq] at this
      subst hts
      simp only [bne_self_eq_false, Bool.false_eq_true, if_false, Except.ok.injEq] at h
      subst h
      simp [jTs]
    | false =>
      have hbne : (ts != "") = true := by simp [bne, hne]
      rw [hbne] at h
      simp only [if_true] at h
      have hj : jTs (Json.str ts) = parseTs ts := by simp [jTs, hne]
      cases hp : parseTs ts with
      | none =>
        rw [hp] at h
        simp only [Except.ok.injEq] at h
        subst h
        refine ⟨rfl, rfl, rfl, rfl, rfl, rfl, ?_, ?_⟩
        · intro t2 ht2
          rw [hj, hp] at ht2
          cases ht2
        · intro _
          exact ⟨rfl, rfl⟩
      | some t =>
        rw [hp] at h
        simp only [Except.ok.injEq] at h
        subst h
        refine ⟨rfl, rfl, rfl, rfl, rfl, rfl, ?_, ?_⟩
        · intro t2 ht2
          rw [hj, hp] at ht2
          injection ht2 with ht2
          subst ht2
          exact ⟨rfl, rfl⟩
        · intro hcon
          rw [hj, hp] at hcon
          cases hcon
  | null =>
    simp only [tsUpdate, truthy, Bool.false_eq_true, if_false, Except.ok.injEq] at h
    subst h
    simp [jTs]
  | bool b =>
    cases b with
    | false =>
      simp only [tsUpdate, truthy, Bool.false_eq_true, if_false, Except.ok.injEq] at h
      subst h
      simp [jTs]
    | true => simp [tsUpdate, truthy] at h
  | num n =>
    simp only [tsUpdate, truthy] at h
    cases hn : n != 0 with
    | true => rw [hn] at h; simp at h
    | false =>
      rw [hn] at h
      simp only [Bool.false_eq_true, if_false, Except.ok.injEq] at h
      subst h
      simp [jTs]
  | arr xs =>
    simp only [tsUpdate, truthy] at h
    cases hx : xs.isEmpty with
    | true =>
      rw [hx] at h
      simp only [Bool.not_true, Bool.false_eq_true, if_false, Except.ok.injEq] at h
      subst h
      simp [jTs]
    | false => rw [hx] at h; simp at h
  | obj kvs =>
    simp only [tsUpdate, truthy] at h
    cases hx : kvs.isEmpty with
    | true =>
      rw [hx] at h
      simp only [Bool.not_true, Bool.false_eq_true, if_false, Except.ok.injEq] at h
      subst h
      simp [jTs]
    | false => rw [hx] at h; simp at h

theorem bool_not_true {b : Bool} (h : ¬ b = true) : b = false := by
  cases b
  · rfl
  · exact absurd rfl h

theorem dispatch_char {s : Session} {kvs : List (String × Json)} {ot ts : Json} {s2 : Session}
    (h : dispatch s kvs ot ts = .ok s2) :
    s2.start_time = s.start_time ∧ s2.end_time = s.end_time ∧
    (s.is_cron = true → s2.is_cron = true) ∧
    (∀ g, dname kvs ot = some g → s2.cron_name = g) ∧
    (dname kvs ot = none → s2.cron_name = s.cron_name) ∧
    (s2.is_cron = true ↔ (s.is_cron = true ∨ duserCron kvs ot = true)) := by
  rw [dispatch] at h
  split at h
  case isTrue h1 =>
    have hne : (ot == Json.str "message") = false := by
      rw [(jeq_str_iff _ _).mp h1]
      decide
    injection h with h2
    subst h2
    simp [dname, duserCron, msgText2_not_message hne]
  case isFalse h1 =>
    split at h
    case isTrue h2 =>
      have hne : (ot == Json.str "message") = false := by
        rw [(jeq_str_iff _ _).mp h2]
        decide
      injection h with h2b
      subst h2b
      simp [dname, duserCron, msgText2_not_message hne]
    case isFalse h2 =>
      split at h
      case isTrue h3 =>
        cases hjm : jlookup kvs "message" (Json.obj []) with
        | obj mkvs =>
          rw [hjm] at h
          dsimp only at h
          cases hex : extract_text (jlookup mkvs "content" (Json.str "")) with
          | error e =>
            rw [hex] at h
            cases h
          | ok t =>
            rw [hex] at h
            dsimp only at h
            have hmt : msgText2 kvs ot =
                (if t == "" then none
                 else if jlookup mkvs "role" (Json.str "") == Json.str "user" then some t
                 else none) := by
              simp [msgText2, h3, hjm, hex]
            cases hte : t == "" with
            | true =>
              simp only [hte, if_true] at h
              injection h with h2b
              subst h2b
              simp [dname, duserCron, hmt, hte]
            | false =>
              simp only [hte, Bool.false_eq_true, if_false] at h
              injection h with h2b
              subst h2b
              have hmt2 : msgText2 kvs ot =
                  (if jlookup mkvs "role" (Json.str "") == Json.str "user" then some t
                   else none) := by
                rw [hmt]
                simp [hte]
              cases hrole : jlookup mkvs "role" (Json.str "") == Json.str "user" with
              | false =>
                have hguard : (jlookup mkvs "role" (Json.str "") == Json.str "user" &&
                    containsSubStr "[cron:" t) = false := by simp [hrole]
                simp [hguard, dname, duserCron, hmt2, hrole]
              | true =>
                cases hcron : containsSubStr "[cron:" t with
                | false =>
                  have hguard : (jlookup mkvs "role" (Json.str "") == Json.str "user" &&
                      containsSubStr "[cron:" t) = false := by simp [hcron]
                  simp [hguard, dname, duserCron, hmt2, hrole, hcron]
                | true =>
                  have hguard : (jlookup mkvs "role" (Json.str "") == Json.str "user" &&
                      containsSubStr "[cron:" t) = true := by simp [hrole, hcron]
                  have hdn : dname kvs ot = cronSearchStr t := by
                    simp [dname, hmt2, hrole, hcron]
                  have hdu : duserCron kvs ot = true := by
                    simp [duserCron, hmt2, hrole, hcron]
                  refine ⟨by simp [hguard], by simp [hguard], by simp [hguard], ?_, ?_, ?_⟩
                  · intro g hg
                    rw [hdn] at hg
                    simp [hguard, hg]
                  · intro hg
                    rw [hdn] at hg
                    simp [hguard, hg]
                  · simp [hguard, hdu]
        | null =>
          rw [hjm] at h
          cases h
        | bool b =>
          rw [hjm] at h
          cases h
        | num n =>
          rw [hjm] at h
          cases h
        | str a =>
          rw [hjm] at h
          cases h
        | arr xs =>
          rw [hjm] at h
          cases h
      case isFalse h3 =>
        have hne : (ot == Json.str "message") = false := bool_not_true h3
        split at h
        case isTrue h4 =>
          dsimp only at h
          split at h
          · injection h with h2b
            subst h2b
            simp [dname, duserCron, msgText2_not_message hne]
          · injection h with h2b
            subst h2b
            simp [dname, duserCron, msgText2_not_message hne]
        case isFalse h4 =>
          injection h with h2b
          subst h2b
          simp [dname, duserCron, msgText2_not_message hne]

theorem stepLine_char {s : Session} {l : Option Json} {s2 : Session}
    (h : stepLine s l = .ok s2) :
    (∀ t, tsOf l = some t → s2.end_time = some t ∧
        s2.start_time = (match s.start_time with | none => some t | some u => some u)) ∧
    (tsOf l = none → s2.start_time = s.start_time ∧ s2.end_time = s.end_time) ∧
    (s.is_cron = true → s2.is_cron = true) ∧
    (∀ g, nameOf l = some g → s2.cron_name = g) ∧
    (nameOf l = none → s2.cron_name = s.cron_name) ∧
    (s2.is_cron = true ↔ (s.is_cron = true ∨ userCron l = true)) := by
  cases l with
  | none =>
    injection h with h2
    subst h2
    simp [tsOf, nameOf, userCron]
  | some j =>
    cases j with
    | obj kvs =>
      simp only [stepLine] at h
      cases htu : tsUpdate s (jlookup kvs "timestamp" (Json.str "")) with
      | error e => rw [htu] at h; cases h
      | ok s1 =>
        rw [htu] at h
        dsimp only at h
        obtain ⟨hid, hmodel, hmsgs, htools, hic, hcn, hsome, hnone⟩ := tsUpdate_char htu
        obtain ⟨dst, det, dic, dsome, dnone, diff⟩ := dispatch_char h
        refine ⟨?_, ?_, ?_, ?_, ?_, ?_⟩
        · intro t ht
          have := hsome t ht
          exact ⟨by rw [det, this.1], by rw [dst, this.2]⟩
        · intro ht
          have := hnone ht
          exact ⟨by rw [dst, this.1], by rw [det, this.2]⟩
        · intro hc
          exact dic (by rw [hic]; exact hc)
        · intro g hg
          exact dsome g hg
        · intro hg
          rw [dnone hg, hcn]
        · rw [diff, hic]
          exact Iff.rfl
    | null => cases h
    | bool b => cases h
    | num n => cases h
    | str a => cases h
    | arr xs => cases h

/-- One user message record with the given text (the shape of the C3
and C4 logs). -/
def userMsg (t : String) : Option Json :=
  some (.obj [("type", .str "message"),
              ("message", .obj [("role", .str "user"), ("content", .str t)])])

/-- C3 counterexample: the first matching user message sets cron_name
to its captured group, but a second matching message OVERWRITES it:
after both messages the name from the second marker stands, so the
claimed first-match-wins behaviour is false. -/
theorem c3_counterexample :
    (parse_session [userMsg "[cron:a A] x"]).map (fun s => s.cron_name) = .ok "A" ∧
      (parse_session [userMsg "[cron:a A] x", userMsg "[cron:b B] y"]).map
        (fun s => s.cron_name) = .ok "B" ∧
      "B" ≠ "A" := by
  refine ⟨rfl, rfl, by decide⟩

/-- C3 amended: once is_cron becomes true it remains true for every
later successfully processed record; cron_name, however, is written by
EVERY user message whose text matches the cron-marker pattern, so the
last match wins (a non-matching record leaves it unchanged). -/
theorem c3_cron_monotone_last_match_wins (s : Session) (l : Option Json) (s2 : Session)
    (h : stepLine s l = .ok s2) :
    (s.is_cron = true → s2.is_cron = true) ∧
    (∀ g, nameOf l = some g → s2.cron_name = g) ∧
    (nameOf l = none → s2.cron_name = s.cron_name) :=
  ⟨(stepLine_char h).2.2.1, (stepLine_char h).2.2.2.1, (stepLine_char h).2.2.2.2.1⟩

/-- The session state after the first C3 message. -/
def c3sess1 : Session :=
  { initSession with
    messages := [{ role := .str "user", text := "[cron:a A] x", timestamp := .str "" }],
    is_cron := true, cron_name := "A" }

/-- The session state after both C3 messages. -/
def c3sess2 : Session :=
  { initSession with
    messages := [{ role := .str "user", text := "[cron:a A] x", timestamp := .str "" },
                 { role := .str "user", text := "[cron:b B] y", timestamp := .str "" }],
    is_cron := true, cron_name := "B" }

/-- Witness for C3: stepping the matching second message over the
state named A overwrites the name to B and keeps is_cron true. -/
theorem c3_witness : c3sess2.is_cron = true ∧ c3sess2.cron_name = "B" :=
  ⟨(c3_cron_monotone_last_match_wins c3sess1 (userMsg "[cron:b B] y") c3sess2 rfl).1 rfl,
   (c3_cron_monotone_last_match_wins c3sess1 (userMsg "[cron:b B] y") c3sess2 rfl).2.1 "B" rfl⟩

theorem except_bind_error {α β : Type} {e : PyErr} (f : α → Except PyErr β) :
    (Except.error e >>= f) = Except.error e := rfl

theorem except_bind_ok {α β : Type} {a : α} (f : α → Except PyErr β) :
    (Except.ok a >>= f) = f a := rfl

theorem foldl_is_cron_iff (log : List (Option Json)) :
    ∀ (s0 s : Session), List.foldlM stepLine s0 log = .ok s →
      (s.is_cron = true ↔ (s0.is_cron = true ∨ ∃ l ∈ log, userCron l = true)) := by
  induction log with
  | nil =>
    intro s0 s h
    simp only [List.foldlM_nil] at h
    injection h with h2
    subst h2
    simp
  | cons l ls ih =>
    intro s0 s h
    simp only [List.foldlM_cons] at h
    cases hst : stepLine s0 l with
    | error e =>
      rw [hst, except_bind_error] at h
      cases h
    | ok s1 =>
      rw [hst, except_bind_ok] at h
      have h1 := (stepLine_char hst).2.2.2.2.2
      have h2 := ih s1 s h
      rw [h2, h1, List.exists_mem_cons_iff]
      tauto

/-- C4 amended: is_cron ends up true exactly when some record of the
log is a message with role user and nonempty flattened text CONTAINING
THE SUBSTRING of the opening marker literal; the full bracketed marker
form is not required (it is only needed for cron_name), as the
counterexample shows. -/
theorem c4_is_cron_iff_substring (log : List (Option Json)) (s : Session)
    (h : parse_session log = .ok s) :
    s.is_cron = true ↔ ∃ l ∈ log, userCron l = true := by
  rw [parse_session] at h
  have := foldl_is_cron_iff log initSession s h
  rw [this]
  simp [initSession]

/-- C4 counterexample: a user message whose text merely contains the
opening literal, with no complete marker of the documented bracketed
form (the marker search fails on it), still sets is_cron. -/
theorem c4_counterexample :
    (parse_session [userMsg "[cron: broken"]).map (fun s => s.is_cron) = .ok true ∧
      cronSearchStr "[cron: broken" = none := ⟨rfl, rfl⟩

/-- The session produced by the C4 witness log. -/
def c4sess : Session :=
  { initSession with
    messages := [{ role := .str "user", text := "hello [cron:x run] hi",
                   timestamp := .str "" }],
    is_cron := true, cron_name := "run" }

/-- Witness for C4 on a concrete log. -/
theorem c4_witness :
    c4sess.is_cron = true ↔ ∃ l ∈ [userMsg "hello [cron:x run] hi"], userCron l = true :=
  c4_is_cron_iff_substring [userMsg "hello [cron:x run] hi"] c4sess rfl

/-- C10: the timestamp bookkeeping of parse_session: the fresh session
starts with both time fields unset; every successfully processed record
preserves the invariant that start_time is unset exactly when end_time
is; a set start_time is never changed; a record carrying a parseable
timestamp overwrites end_time with it and sets start_time only when it
was unset; a record without one leaves both fields untouched. -/
theorem c10_time_bookkeeping (s : Session) (l : Option Json) (s2 : Session)
    (h : stepLine s l = .ok s2) :
    (initSession.start_time = none ∧ initSession.end_time = none) ∧
    ((s.start_time = none ↔ s.end_time = none) →
      (s2.start_time = none ↔ s2.end_time = none)) ∧
    (∀ t, s.start_time = some t → s2.start_time = some t) ∧
    (∀ t, tsOf l = some t → s2.end_time = some t ∧
      (s.start_time = none → s2.start_time = some t)) ∧
    (tsOf l = none → s2.start_time = s.start_time ∧ s2.end_time = s.end_time) := by
  obtain ⟨hsome, hnone, _, _, _, _⟩ := stepLine_char h
  refine ⟨⟨rfl, rfl⟩, ?_, ?_, ?_, ?_⟩
  · intro hinv
    cases hts : tsOf l with
    | none =>
      obtain ⟨h1, h2⟩ := hnone hts
      rw [h1, h2]
      exact hinv
    | some t =>
      obtain ⟨h1, h2⟩ := hsome t hts
      have hex : ∃ v, s2.start_time = some v := by
        rw [h2]
        cases s.start_time with
        | none => exact ⟨t, rfl⟩
        | some u => exact ⟨u, rfl⟩
      obtain ⟨v, hv⟩ := hex
      rw [hv, h1]
      simp
  · intro t hst
    cases hts : tsOf l with
    | none => rw [(hnone hts).1]; exact hst
    | some t2 =>
      have := (hsome t2 hts).2
      rw [this, hst]
  · intro t hts
    obtain ⟨h1, h2⟩ := hsome t hts
    refine ⟨h1, ?_⟩
    intro hst
    rw [h2, hst]
  · exact hnone

/-- The record carrying only a timestamp used by the C10 witness. -/
def c10rec : Option Json :=
  some (.obj [("timestamp", .str "2024-03-14T16:30:00Z")])

/-- The session state after the C10 witness record. -/
def c10sess : Session :=
  { initSession with start_time := some 1710433800, end_time := some 1710433800 }

/-- Witness for C10: stepping a fresh session over a record with a
parseable timestamp sets both fields to that instant. -/
theorem c10_witness :
    c10sess.end_time = some 1710433800 ∧ c10sess.start_time = some 1710433800 :=
  ⟨((c10_time_bookkeeping initSession c10rec c10sess rfl).2.2.2.1 1710433800 rfl).1,
   ((c10_time_bookkeeping initSession c10rec c10sess rfl).2.2.2.1 1710433800 rfl).2 rfl⟩

/-- The extra assistant message used in C6. -/
def diskMsg : Message :=
  { role := .str "assistant", text := "Disk usage at 92%", timestamp := .str "" }

/-- C6: a cron session whose name contains heartbeat case-insensitively
and whose only assistant message text is exactly the HEARTBEAT_OK
sentinel is excluded by the Noise Classifier, and the same session
with an additional substantive assistant message is kept. -/
theorem c6_heartbeat_suppression (s : Session)
    (hcron : s.is_cron = true)
    (hhb : containsSubStr "heartbeat" (lowerStr s.cron_name) = true)
    (hass : (s.messages.filter (fun m => m.role == .str "assistant")).map
        (fun m => m.text) = ["HEARTBEAT_OK"]) :
    noiseKeep s = false ∧
      noiseKeep { s with messages := s.messages ++ [diskMsg] } = true := by
  have hhb2 : isHb s = true := by
    simp [isHb, hcron, hhb]
  have hfilter : ∃ m0, s.messages.filter (fun m => m.role == .str "assistant") = [m0] ∧
      m0.text = "HEARTBEAT_OK" := by
    cases hf : s.messages.filter (fun m => m.role == .str "assistant") with
    | nil => rw [hf] at hass; simp at hass
    | cons m0 rest =>
      rw [hf] at hass
      simp only [List.map_cons, List.cons.injEq] at hass
      obtain ⟨ht, hrest⟩ := hass
      have : rest = [] := by
        cases rest with
        | nil => rfl
        | cons a b => simp at hrest
      subst this
      exact ⟨m0, rfl, ht⟩
  obtain ⟨m0, hf, hm0⟩ := hfilter
  have hsub : hasSubstance s = false := by
    rw [hasSubstance]
    rw [List.any_eq_false]
    intro m hm
    cases hrole : m.role == Json.str "assistant" with
    | false => simp [hrole]
    | true =>
      have hmem : m ∈ s.messages.filter (fun m => m.role == .str "assistant") :=
        List.mem_filter.mpr ⟨hm, hrole⟩
      rw [hf, List.mem_singleton] at hmem
      subst hmem
      simp [hrole, hm0]
  have hlen1 : 1 ≤ s.messages.length := by
    have hle := List.length_filter_le (fun m => m.role == .str "assistant") s.messages
    rw [hf] at hle
    simpa using hle
  constructor
  · simp [noiseKeep, hhb2, hsub]
  · have hlen2 : ¬ ((s.messages ++ [diskMsg]).length < 2) := by
      rw [List.length_append]
      simp only [List.length_singleton]
      omega
    have hpred : (fun (m : Message) =>
        m.role == Json.str "assistant" && m.text != "" &&
          !(m.text == "HEARTBEAT_OK" || m.text == "NO_REPLY" || m.text == "") &&
          !startsLt m.text) diskMsg = true := by decide
    have hsub2 : hasSubstance { s with messages := s.messages ++ [diskMsg] } = true := by
      rw [hasSubstance]
      simp only [List.any_append]
      rw [Bool.or_eq_true]
      right
      simp only [List.any_cons, List.any_nil, Bool.or_false]
      exact hpred
    have hhb3 : isHb { s with messages := s.messages ++ [diskMsg] } = true := by
      simp [isHb, hcron, hhb]
    simp [noiseKeep, hlen2, hsub2, hhb3, hlen1]

/-- The concrete heartbeat session of the C6 witness. -/
def c6sess : Session :=
  { initSession with
    is_cron := true, cron_name := "Heartbeat Check",
    messages := [{ role := .str "user", text := "ping", timestamp := .str "" },
                 { role := .str "assistant", text := "HEARTBEAT_OK", timestamp := .str "" }] }

/-- Witness for C6 on the concrete heartbeat session. -/
theorem c6_witness :
    noiseKeep c6sess = false ∧
      noiseKeep { c6sess with messages := c6sess.messages ++ [diskMsg] } = true :=
  c6_heartbeat_suppression c6sess rfl (by decide) (by decide)
